import Mathlib

/-!
Shallow embedding of `py_cold_clear` (`src/__init__.py`), a ctypes wrapper
around the Cold Clear Tetris bot dynamic library, together with proofs of
the specification claims about it.

The wrapper itself is pure marshalling code: it loads the library once,
declares ctypes structure layouts mirroring the engine ABI, and converts
between Python data and the C buffers passed to the engine entry points.
The engine (the dynamic library) is external; where a claim depends on the
engine's own protocol behaviour it is modelled from the specification, and
this is stated in the doc comment of the corresponding definition.
-/

namespace PyColdClear

/-! ## C type descriptors and the ctypes structure layouts (C6) -/

/-- Descriptor of a ctypes field type, as written in the `_fields_` lists of
`src/__init__.py`. -/
inductive CTy where
  | cbool
  | cint
  | cint32
  | cuint8
  | cuint32
  | carr (n : Nat) (t : CTy)
deriving DecidableEq, Repr

/-- The `_fields_` list of `class CCMove(ctypes.Structure)` (src/__init__.py
lines 78-94), in declaration order. -/
def CCMove_fields : List (String × CTy) :=
  [ ("hold", .cbool),
    ("expected_x", .carr 4 .cuint8),
    ("expected_y", .carr 4 .cuint8),
    ("movement_count", .cuint8),
    ("movements", .carr 32 .cint),
    ("nodes", .cuint32),
    ("depth", .cuint32),
    ("original_rank", .cuint32) ]

/-- The `_fields_` list of `class CCPlanPlacement(ctypes.Structure)`
(src/__init__.py lines 60-71), in declaration order. -/
def CCPlanPlacement_fields : List (String × CTy) :=
  [ ("piece", .cint),
    ("tspin", .cint),
    ("expected_x", .carr 4 .cuint8),
    ("expected_y", .carr 4 .cuint8),
    ("cleared_lines", .carr 4 .cint32) ]

/-- The `_fields_` list of `class CCOptions(ctypes.Structure)`
(src/__init__.py lines 106-115), in declaration order. -/
def CCOptions_fields : List (String × CTy) :=
  [ ("mode", .cint),
    ("use_hold", .cbool),
    ("speculate", .cbool),
    ("pcloop", .cbool),
    ("min_nodes", .cuint32),
    ("max_nodes", .cuint32),
    ("threads", .cuint32) ]

/-- The field widths of MoveResult as the spec's ABI paragraph lists them:
hold(bool), expected_x[4], expected_y[4] (u8 coordinates), movementCount(u8),
movements[32] (int-coded Movement), nodes(u32), depth(u32), originalRank(u32). -/
def specMoveResultTypes : List CTy :=
  [ .cbool, .carr 4 .cuint8, .carr 4 .cuint8, .cuint8, .carr 32 .cint,
    .cuint32, .cuint32, .cuint32 ]

/-- The field widths of PlanPlacement as the spec's ABI paragraph lists them:
piece(int), tspin(int), expected_x[4], expected_y[4], clearedLines[4] (int32). -/
def specPlanPlacementTypes : List CTy :=
  [ .cint, .cint, .carr 4 .cuint8, .carr 4 .cuint8, .carr 4 .cint32 ]

/-- The field widths of Options as the spec's ABI paragraph lists them:
mode(int), useHold(bool), speculate(bool), pcLoop(bool), minNodes(u32),
maxNodes(u32), threads(u32). -/
def specOptionsTypes : List CTy :=
  [ .cint, .cbool, .cbool, .cbool, .cuint32, .cuint32, .cuint32 ]

/-! ## Public enums (C7) -/

/-- The `CCPiece` enum of src/__init__.py lines 28-35. -/
inductive CCPiece where
  | I
  | T
  | O
  | S
  | Z
  | L
  | J
deriving DecidableEq, Repr

/-- The integer value each `CCPiece` member is declared with. -/
def CCPiece.toInt : CCPiece → Nat
  | .I => 0
  | .T => 1
  | .O => 2
  | .S => 3
  | .Z => 4
  | .L => 5
  | .J => 6

/-- The `CCBotPollStatus` enum of src/__init__.py lines 55-58. -/
inductive CCBotPollStatus where
  | MOVE_PROVIDED
  | WAITING
  | DEAD
deriving DecidableEq, Repr

/-- The integer value each `CCBotPollStatus` member is declared with. -/
def CCBotPollStatus.toInt : CCBotPollStatus → Nat
  | .MOVE_PROVIDED => 0
  | .WAITING => 1
  | .DEAD => 2

/-! ## Module initialisation (C8) -/

/-- State of a loaded dynamic library: the path it was loaded from and
whether the result types of the ten engine entry points were configured
(lines 17-26 of `init` do this right after loading). -/
structure LoadedLib where
  path : String
  restypesConfigured : Bool
deriving DecidableEq, Repr

/-- `ctypes.cdll.LoadLibrary(path)` followed by the `restype` assignments
inside `init` (src/__init__.py lines 16-26). -/
def loadLibrary (path : String) : LoadedLib :=
  { path := path, restypesConfigured := true }

/-- The module-level `COLD_CLEAR_LIB` global together with `init`
(src/__init__.py lines 9-26): `init(path)` loads the library and configures
result types only when `COLD_CLEAR_LIB == None`; otherwise it returns with
no effect. -/
def init (lib : Option LoadedLib) (path : String) : Option LoadedLib :=
  if lib = none then some (loadLibrary path) else lib

/-! ## Handle lifecycle: terminate (C3) -/

/-- The parts of a `CCHandle` instance that `terminate` touches: the
`_handle` pointer (`none` once terminated) and, for accounting, how many
times `cc_destroy_async` has been invoked on it. -/
structure HandleState where
  handle : Option Nat
  destroyCalls : Nat
deriving DecidableEq, Repr

/-- `CCHandle.terminate` (src/__init__.py lines 187-194): when `_handle` is
not `None` it calls `cc_destroy_async(self._handle)` and sets `_handle` to
`None`; otherwise it does nothing. -/
def terminate (s : HandleState) : HandleState :=
  if s.handle ≠ none then
    { handle := none, destroyCalls := s.destroyCalls + 1 }
  else
    s

/-! ## Move and plan values, iterators (C10) -/

/-- The value held by a `CCPlanPlacement` buffer: one field per entry of its
`_fields_` list, with the fixed-size C arrays as lists (length 4 for a real
buffer). -/
structure CCPlanPlacementVal where
  piece : Int
  tspin : Int
  expected_x : List Nat
  expected_y : List Nat
  cleared_lines : List Int
deriving DecidableEq, Repr

/-- The value held by a `CCMove` buffer: one field per entry of its
`_fields_` list, with the fixed-size C arrays as lists (`expected_x` and
`expected_y` of length 4 and `movements` of length 32 for a real buffer). -/
structure CCMoveVal where
  hold : Bool
  expected_x : List Nat
  expected_y : List Nat
  movement_count : Nat
  movements : List Int
  nodes : Nat
  depth : Nat
  original_rank : Nat
deriving DecidableEq, Repr

/-- `CCPlanPlacement.expected_cells_iter` (src/__init__.py lines 73-76):
`for i in range(4): yield self.expected_x[i], self.expected_y[i]`, collected
into a list. -/
def CCPlanPlacementVal.expected_cells_iter (p : CCPlanPlacementVal) : List (Nat × Nat) :=
  (List.range 4).map fun i => (p.expected_x.getD i 0, p.expected_y.getD i 0)

/-- `CCMove.expected_cells_iter` (src/__init__.py lines 96-99):
`for i in range(4): yield self.expected_x[i], self.expected_y[i]`, collected
into a list. -/
def CCMoveVal.expected_cells_iter (m : CCMoveVal) : List (Nat × Nat) :=
  (List.range 4).map fun i => (m.expected_x.getD i 0, m.expected_y.getD i 0)

/-- `CCMove.movements_iter` (src/__init__.py lines 101-104):
`for i in range(self.movement_count): yield self.movements[i]`, collected
into a list. -/
def CCMoveVal.movements_iter (m : CCMoveVal) : List Int :=
  (List.range m.movement_count).map fun i => m.movements.getD i 0

/-! ## The next-move marshalling helper (C1, C4, C9)

`CCHandle._next_move_fn` (src/__init__.py lines 255-263) allocates a
zero-initialised `CCMove` buffer and a `plan_length`-element
`CCPlanPlacement` array, passes a null plan pointer when `plan_length` is
not positive, calls the given engine entry point, and returns the status
together with the move buffer and the slice `plan[0:raw_plan_length.value]`.
The engine entry point is external; its observable effect on one call is
captured by an `EngineResponse`: the status it returns, what it writes into
the move buffer, the placements it writes into the plan array (when the
pointer is non-null), and the count it writes back through the plan-length
out-parameter. -/

/-- A zero-initialised `CCPlanPlacement` buffer, as ctypes produces for each
element of `(CCPlanPlacement * plan_length)()`. -/
def zeroPlanPlacement : CCPlanPlacementVal :=
  { piece := 0, tspin := 0,
    expected_x := List.replicate 4 0, expected_y := List.replicate 4 0,
    cleared_lines := List.replicate 4 0 }

/-- A zero-initialised `CCMove` buffer, as ctypes produces for `CCMove()`. -/
def zeroMove : CCMoveVal :=
  { hold := false,
    expected_x := List.replicate 4 0, expected_y := List.replicate 4 0,
    movement_count := 0, movements := List.replicate 32 0,
    nodes := 0, depth := 0, original_rank := 0 }

/-- The observable effect of one call to an engine next-move entry point
(`cc_poll_next_move` or `cc_block_next_move`): the returned status, the move
written into the move buffer, the placements written into the plan array
when its pointer is non-null, and the count written back through the
plan-length out-parameter. -/
structure EngineResponse where
  status : Nat
  move : CCMoveVal
  planWrites : List CCPlanPlacementVal
  outLen : Nat
deriving DecidableEq, Repr

/-- The contents of the `plan_length`-element plan array after the engine
writes its placements into an initial prefix: the writes, clamped to the
array capacity, followed by the remaining zero-initialised elements. -/
def writePlanArray (plan_length : Nat) (writes : List CCPlanPlacementVal) :
    List CCPlanPlacementVal :=
  writes.take plan_length ++
    List.replicate (plan_length - writes.length) zeroPlanPlacement

/-- What `_next_move_fn` returns, plus whether the plan pointer it passed to
the engine was null. -/
structure NextMoveResult where
  status : Nat
  move : CCMoveVal
  plan : List CCPlanPlacementVal
  planPtrNull : Bool
deriving DecidableEq, Repr

/-- `CCHandle._next_move_fn` (src/__init__.py lines 255-263): allocate the
move buffer and the `plan_length`-element plan array, pass a null plan
pointer unless `plan_length > 0`, invoke the engine entry point (whose
effect is `resp`), and return `status, move, plan[0:raw_plan_length.value]`.
Python list slicing clamps to the array length, as `List.take` does. -/
def nextMoveFn (resp : EngineResponse) (plan_length : Nat) : NextMoveResult :=
  let planArr :=
    if plan_length > 0 then writePlanArray plan_length resp.planWrites
    else List.replicate plan_length zeroPlanPlacement
  { status := resp.status,
    move := resp.move,
    plan := planArr.take resp.outLen,
    planPtrNull := if plan_length > 0 then false else true }

/-- The default value of the `plan_length` parameter of both
`poll_next_move` and `block_next_move` (src/__init__.py lines 265 and 285). -/
def defaultPlanLength : Nat := 0

/-- `CCHandle.poll_next_move` (src/__init__.py lines 265-283):
`self._next_move_fn(COLD_CLEAR_LIB.cc_poll_next_move, plan_length)`, where
`resp` is the effect of the `cc_poll_next_move` call. -/
def poll_next_move (resp : EngineResponse) (plan_length : Nat) : NextMoveResult :=
  nextMoveFn resp plan_length

/-- `CCHandle.block_next_move` (src/__init__.py lines 285-292):
`self._next_move_fn(COLD_CLEAR_LIB.cc_block_next_move, plan_length)`, where
`resp` is the effect of the `cc_block_next_move` call. -/
def block_next_move (resp : EngineResponse) (plan_length : Nat) : NextMoveResult :=
  nextMoveFn resp plan_length

/-! ## Field marshalling in reset (C5)

`CCHandle.reset` (src/__init__.py lines 202-220) allocates
`raw_field = (ctypes.c_bool * 400)()` (zero-initialised, i.e. all `False`)
and runs
`for y, row in enumerate(field): for x, cell in enumerate(row):
raw_field[x + y * 10] = cell`
before handing `raw_field` to `cc_reset_async`. The two nested loops are
embedded as structural recursions performing the identical sequence of
element writes. -/

/-- The inner loop of `reset` for one row: starting at enumeration index
`x`, write each cell of `row` at flat index `x + y * 10`. -/
def writeRow (raw : List Bool) (y x : Nat) : List Bool → List Bool
  | [] => raw
  | cell :: rest => writeRow (raw.set (x + y * 10) cell) y (x + 1) rest

/-- The outer loop of `reset`: starting at enumeration index `y`, write each
row of `field` with the inner loop (whose `enumerate` restarts at 0). -/
def writeField (raw : List Bool) (y : Nat) : List (List Bool) → List Bool
  | [] => raw
  | row :: rest => writeField (writeRow raw y 0 row) (y + 1) rest

/-- The `raw_field` array `reset` builds from `field` and passes to
`cc_reset_async`: 400 `False` cells overwritten by the nested loops. -/
def resetRawField (field : List (List Bool)) : List Bool :=
  writeField (List.replicate 400 false) 0 field

/-! ## The engine poll-status protocol (C2) -/

/-- Modelled from the spec: the per-handle request state machine of the
engine (`cc_poll_next_move` / `cc_block_next_move` status resolution) lives
in the Cold Clear dynamic library, which is not part of this repository;
only the ctypes wrapper is under src/. Per spec section 4.3 the states of a
pending request are IDLE, REQUESTED, resolved-with-a-move, and DEAD. -/
inductive EngineState where
  | idle
  | requested
  | provided (m : CCMoveVal)
  | dead
deriving DecidableEq, Repr

/-- Modelled from the spec: the transitions of the per-handle request state
machine, excluding `reset` (the claims concern behaviour without an
intervening reset). `request_next_move` moves IDLE to REQUESTED; the engine
resolves a REQUESTED state to a provided move or to DEAD ("terminal for
that handle; no further moves will ever be provided"); consuming a provided
move returns to IDLE; a dead handle stays dead. -/
inductive EngineStep : EngineState → EngineState → Prop where
  | request : EngineStep .idle .requested
  | provide (m : CCMoveVal) : EngineStep .requested (.provided m)
  | die : EngineStep .requested .dead
  | consume (m : CCMoveVal) : EngineStep (.provided m) .idle
  | stayDead : EngineStep .dead .dead

/-- Modelled from the spec: the status `cc_poll_next_move` reports for each
engine state — `MOVE_PROVIDED` once resolved with a move, `DEAD` once the
engine has concluded the position is unsurvivable, `WAITING` otherwise.
`cc_block_next_move` reports the same status once it returns, since it only
differs by suspending while the status would be `WAITING`. -/
def pollStatus : EngineState → CCBotPollStatus
  | .idle => .WAITING
  | .requested => .WAITING
  | .provided _ => .MOVE_PROVIDED
  | .dead => .DEAD

/-! ## Helper lemmas -/

theorem writeRow_length (row : List Bool) : ∀ (raw : List Bool) (y x : Nat),
    (writeRow raw y x row).length = raw.length := by
  induction row with
  | nil => intro raw y x; rfl
  | cons c rest ih =>
    intro raw y x
    simp [writeRow, ih, List.length_set]

theorem writeRow_getElem_untouched (row : List Bool) :
    ∀ (raw : List Bool) (y x j : Nat),
    (∀ k, k < row.length → j ≠ x + k + y * 10) →
    (writeRow raw y x row)[j]? = raw[j]? := by
  induction row with
  | nil => intro raw y x j _; rfl
  | cons c rest ih =>
    intro raw y x j h
    show (writeRow (raw.set (x + y * 10) c) y (x + 1) rest)[j]? = raw[j]?
    rw [ih (raw.set (x + y * 10) c) y (x + 1) j ?_]
    · exact List.getElem?_set_ne (by have := h 0 (by simp); omega)
    · intro k hk
      have := h (k + 1) (by simpa using Nat.succ_lt_succ hk)
      omega

theorem writeRow_getElem_hit (row : List Bool) :
    ∀ (raw : List Bool) (y x k : Nat),
    k < row.length → x + k + y * 10 < raw.length →
    (writeRow raw y x row)[x + k + y * 10]? = row[k]? := by
  induction row with
  | nil => intro raw y x k hk _; exact absurd hk (by simp)
  | cons c rest ih =>
    intro raw y x k hk hb
    show (writeRow (raw.set (x + y * 10) c) y (x + 1) rest)[x + k + y * 10]? = _
    match k with
    | 0 =>
      rw [writeRow_getElem_untouched rest _ y (x + 1) _ (by intro m _; omega)]
      have hx : x + 0 + y * 10 = x + y * 10 := by omega
      rw [hx, List.getElem?_set_self (by omega)]
      simp
    | Nat.succ k =>
      have hidx : x + (k + 1) + y * 10 = (x + 1) + k + y * 10 := by omega
      rw [hidx, ih (raw.set (x + y * 10) c) y (x + 1) k
        (by simpa using Nat.lt_of_succ_lt_succ hk)
        (by rw [List.length_set]; omega)]
      simp

theorem writeField_length (rows : List (List Bool)) : ∀ (raw : List Bool) (y : Nat),
    (writeField raw y rows).length = raw.length := by
  induction rows with
  | nil => intro raw y; rfl
  | cons row rest ih =>
    intro raw y
    show (writeField (writeRow raw y 0 row) (y + 1) rest).length = raw.length
    rw [ih, writeRow_length]

theorem writeField_getElem_below (rows : List (List Bool)) :
    ∀ (raw : List Bool) (y j : Nat),
    (∀ row ∈ rows, row.length ≤ 10) → j < y * 10 →
    (writeField raw y rows)[j]? = raw[j]? := by
  induction rows with
  | nil => intro raw y j _ _; rfl
  | cons row rest ih =>
    intro raw y j hrows hj
    show (writeField (writeRow raw y 0 row) (y + 1) rest)[j]? = raw[j]?
    rw [ih (writeRow raw y 0 row) (y + 1) j
      (fun r hr => hrows r (List.mem_cons_of_mem row hr)) (by omega)]
    exact writeRow_getElem_untouched row raw y 0 j
      (by
        intro k hk
        have := hrows row (List.mem_cons_self row rest)
        omega)

theorem writeField_getElem_hit (rows : List (List Bool)) :
    ∀ (raw : List Bool) (y k x : Nat),
    (∀ row ∈ rows, row.length = 10) →
    k < rows.length → x < 10 → x + (y + k) * 10 < raw.length →
    (writeField raw y rows)[x + (y + k) * 10]? =
      some ((rows.getD k []).getD x false) := by
  induction rows with
  | nil => intro raw y k x _ hk _ _; exact absurd hk (by simp)
  | cons row rest ih =>
    intro raw y k x hrows hk hx hb
    show (writeField (writeRow raw y 0 row) (y + 1) rest)[x + (y + k) * 10]? = _
    have hrowlen : row.length = 10 := hrows row (List.mem_cons_self row rest)
    match k with
    | 0 =>
      rw [writeField_getElem_below rest (writeRow raw y 0 row) (y + 1) (x + (y + 0) * 10)
        (fun r hr => Nat.le_of_eq (hrows r (List.mem_cons_of_mem row hr))) (by omega)]
      have hidx : x + (y + 0) * 10 = 0 + x + y * 10 := by omega
      rw [hidx, writeRow_getElem_hit row raw y 0 x (by omega) (by omega)]
      have hxrow : x < row.length := by omega
      rw [List.getElem?_eq_getElem hxrow]
      have hhead : ((row :: rest).getD 0 []) = row := rfl
      rw [hhead, List.getD_eq_getElem row false hxrow]
    | Nat.succ k =>
      have hidx : x + (y + (k + 1)) * 10 = x + ((y + 1) + k) * 10 := by omega
      rw [hidx, ih (writeRow raw y 0 row) (y + 1) k x
        (fun r hr => hrows r (List.mem_cons_of_mem row hr))
        (by simpa using Nat.lt_of_succ_lt_succ hk) hx
        (by rw [writeRow_length]; omega)]
      rfl

theorem writePlanArray_length (plan_length : Nat) (writes : List CCPlanPlacementVal) :
    (writePlanArray plan_length writes).length = plan_length := by
  simp [writePlanArray, List.length_take, List.length_replicate]
  omega

theorem range_map_getD_eq_take {α : Type} (l : List α) (d : α) (n : Nat)
    (h : n ≤ l.length) :
    (List.range n).map (fun i => l.getD i d) = l.take n := by
  apply List.ext_getElem
  · simp [List.length_take]
    omega
  · intro i h1 h2
    simp only [List.getElem_map, List.getElem_range, List.getElem_take]
    have hi : i < l.length := by
      simp [List.length_take] at h2
      omega
    exact List.getD_eq_getElem l d hi

/-! ## Sample values used by witnesses -/

/-- A concrete move value: 2 movements, 32-entry movements array. -/
def sampleMove : CCMoveVal :=
  { hold := true,
    expected_x := [0, 1, 2, 3], expected_y := [5, 5, 6, 6],
    movement_count := 2,
    movements := (List.range 32).map Int.ofNat,
    nodes := 100, depth := 7, original_rank := 0 }

/-- A concrete plan placement value. -/
def samplePlacement : CCPlanPlacementVal :=
  { piece := 1, tspin := 0,
    expected_x := [4, 4, 5, 5], expected_y := [0, 1, 0, 1],
    cleared_lines := [-1, -1, -1, -1] }

/-- A concrete 40-row, 10-column field, empty except the cell at row 3,
column 7. -/
def sampleField : List (List Bool) :=
  (List.replicate 40 (List.replicate 10 false)).set 3
    ((List.replicate 10 false).set 7 true)

/-! ## Claim theorems -/

/-- C1: `poll_next_move` and `block_next_move` perform exactly the same
marshalling through the shared helper `_next_move_fn` — same move buffer,
same plan array construction, same slicing — differing only in which
library entry point is invoked, so for any equal engine response and any
plan capacity the two return equal `(status, move, plan)` triples. -/
theorem poll_block_same_marshalling (resp : EngineResponse) (plan_length : Nat) :
    poll_next_move resp plan_length = block_next_move resp plan_length := rfl

/-- C2: once a poll or block call reports `DEAD`, every later call on the
same handle without an intervening reset also reports `DEAD` and never
reports `MOVE_PROVIDED` again — `DEAD` is terminal in the engine request
state machine modelled from the spec. -/
theorem dead_is_terminal (s t : EngineState)
    (hsteps : Relation.ReflTransGen EngineStep s t)
    (hdead : pollStatus s = CCBotPollStatus.DEAD) :
    pollStatus t = CCBotPollStatus.DEAD ∧
      pollStatus t ≠ CCBotPollStatus.MOVE_PROVIDED := by
  have hs : s = EngineState.dead := by
    cases s with
    | idle => simp [pollStatus] at hdead
    | requested => simp [pollStatus] at hdead
    | provided m => simp [pollStatus] at hdead
    | dead => rfl
  subst hs
  have hstay : ∀ u, EngineStep EngineState.dead u → u = EngineState.dead := by
    intro u h
    cases h
    rfl
  have ht : t = EngineState.dead := by
    induction hsteps with
    | refl => rfl
    | tail h1 h2 ih => exact hstay _ (ih ▸ h2)
  subst ht
  exact ⟨rfl, by decide⟩

theorem dead_is_terminal_witness :
    pollStatus EngineState.dead = CCBotPollStatus.DEAD ∧
      pollStatus EngineState.dead ≠ CCBotPollStatus.MOVE_PROVIDED :=
  dead_is_terminal EngineState.dead EngineState.dead
    (Relation.ReflTransGen.single EngineStep.stayDead) rfl

/-- C3: `terminate` is idempotent — a second call is a no-op, the handle
pointer is `None` after the first call, and `cc_destroy_async` is not
invoked again by the second call. -/
theorem terminate_idempotent (s : HandleState) :
    terminate (terminate s) = terminate s ∧
    (terminate s).handle = none ∧
    (terminate (terminate s)).destroyCalls = (terminate s).destroyCalls := by
  cases s with
  | mk handle destroyCalls => cases handle <;> simp [terminate]

/-- C4: for every engine response (including one reporting a placement
count larger than the capacity) and every plan capacity, the plan list
returned by `poll_next_move` and by `block_next_move` has length at most
the capacity, because the wrapper slices the fixed capacity-element array
with `[0:returned_count]`. -/
theorem plan_length_at_most_capacity (resp : EngineResponse) (plan_length : Nat) :
    (poll_next_move resp plan_length).plan.length ≤ plan_length ∧
    (block_next_move resp plan_length).plan.length ≤ plan_length := by
  have key : (nextMoveFn resp plan_length).plan.length ≤ plan_length := by
    simp only [nextMoveFn, List.length_take]
    rcases Nat.decEq plan_length 0 with h | h
    · simp [Nat.pos_of_ne_zero h, writePlanArray_length]
    · simp [h]
  exact ⟨key, key⟩

/-- C5: `reset` marshals the cell at row `y`, column `x` of a 40-row,
10-column field to flat index `x + 10 * y` of the 400-element boolean array
passed to `cc_reset_async`: row-major, rows bottom-to-top, cells
left-to-right, the first element being the bottom-left cell. -/
theorem reset_field_marshalling (field : List (List Bool))
    (hrows : field.length = 40) (hcells : ∀ row ∈ field, row.length = 10)
    (y x : Nat) (hy : y < 40) (hx : x < 10) :
    (resetRawField field)[x + 10 * y]? =
      some ((field.getD y []).getD x false) := by
  have h := writeField_getElem_hit field (List.replicate 400 false) 0 y x
    hcells (by omega) hx (by rw [List.length_replicate]; omega)
  have hidx : x + (0 + y) * 10 = x + 10 * y := by omega
  rw [hidx] at h
  exact h

theorem reset_field_marshalling_witness :
    (resetRawField sampleField)[7 + 10 * 3]? = some true := by
  have h := reset_field_marshalling sampleField (by decide) (by decide)
    3 7 (by decide) (by decide)
  exact h.trans (by decide)

/-- C6: the ctypes structure layouts of `CCMove`, `CCPlanPlacement` and
`CCOptions` match the spec's ABI field order and widths exactly. -/
theorem struct_layouts_match_spec :
    CCMove_fields.map Prod.snd = specMoveResultTypes ∧
    CCPlanPlacement_fields.map Prod.snd = specPlanPlacementTypes ∧
    CCOptions_fields.map Prod.snd = specOptionsTypes :=
  ⟨rfl, rfl, rfl⟩

/-- C7: the integer wire encodings of the public enums match the spec:
`CCPiece` maps I, T, O, S, Z, L, J to 0..6 in that order, and
`CCBotPollStatus` maps `MOVE_PROVIDED` to 0, `WAITING` to 1 and `DEAD`
to 2. -/
theorem enum_encodings_match_spec :
    [CCPiece.I, CCPiece.T, CCPiece.O, CCPiece.S,
      CCPiece.Z, CCPiece.L, CCPiece.J].map CCPiece.toInt =
      [0, 1, 2, 3, 4, 5, 6] ∧
    CCBotPollStatus.MOVE_PROVIDED.toInt = 0 ∧
    CCBotPollStatus.WAITING.toInt = 1 ∧
    CCBotPollStatus.DEAD.toInt = 2 :=
  ⟨rfl, rfl, rfl, rfl⟩

/-- C8: `init` loads the dynamic library at most once per process — the
first call on an unloaded module loads the library and configures result
types, and every later call, even with a different path, returns without
effect, keeping the first loaded library. -/
theorem init_loads_once (p1 p2 : String) (l : LoadedLib) :
    init none p1 = some (loadLibrary p1) ∧
    init (init none p1) p2 = init none p1 ∧
    init (some l) p2 = some l :=
  ⟨rfl, rfl, rfl⟩

/-- C9: with the default plan capacity 0 of both `poll_next_move` and
`block_next_move`, the wrapper passes a null plan pointer to the engine and
the returned plan component is the empty list, for every engine response
(hence every status). -/
theorem default_capacity_null_plan (resp : EngineResponse) :
    (poll_next_move resp defaultPlanLength).planPtrNull = true ∧
    (poll_next_move resp defaultPlanLength).plan = [] ∧
    (block_next_move resp defaultPlanLength).planPtrNull = true ∧
    (block_next_move resp defaultPlanLength).plan = [] := by
  simp [poll_next_move, block_next_move, nextMoveFn, defaultPlanLength]

/-- C10: `expected_cells_iter` on both `CCMove` and `CCPlanPlacement`
yields exactly the 4 pairs `(expected_x[i], expected_y[i])` for
`i = 0..3` in index order, and `movements_iter` yields exactly the first
`movement_count` entries of the 32-element movements array in index order
when `movement_count ≤ 32`. -/
theorem iterators_faithful (m : CCMoveVal) (p : CCPlanPlacementVal)
    (hcount : m.movement_count ≤ 32) (hlen : m.movements.length = 32) :
    m.expected_cells_iter =
      [ (m.expected_x.getD 0 0, m.expected_y.getD 0 0),
        (m.expected_x.getD 1 0, m.expected_y.getD 1 0),
        (m.expected_x.getD 2 0, m.expected_y.getD 2 0),
        (m.expected_x.getD 3 0, m.expected_y.getD 3 0) ] ∧
    p.expected_cells_iter =
      [ (p.expected_x.getD 0 0, p.expected_y.getD 0 0),
        (p.expected_x.getD 1 0, p.expected_y.getD 1 0),
        (p.expected_x.getD 2 0, p.expected_y.getD 2 0),
        (p.expected_x.getD 3 0, p.expected_y.getD 3 0) ] ∧
    m.movements_iter = m.movements.take m.movement_count := by
  refine ⟨rfl, rfl, ?_⟩
  show (List.range m.movement_count).map (fun i => m.movements.getD i 0) = _
  exact range_map_getD_eq_take m.movements 0 m.movement_count (by omega)

theorem iterators_faithful_witness :
    sampleMove.movements_iter =
      sampleMove.movements.take sampleMove.movement_count :=
  (iterators_faithful sampleMove samplePlacement (by decide) (by decide)).2.2

end PyColdClear
